import Mathlib

/-!
Verification of the table query engine of `table-rs`.

The repository contains two framework adapters (`src/yew` and `src/dioxus`)
whose query pipelines are line-for-line identical in logic:
filter (`filtered_indices`), stable sort (`Vec::sort_by`), and pagination
(`total_pages` / `current_page` / `page_rows`), plus the sort-toggle handler
(`on_sort_column`) and the prev/next page handlers (`on_prev` / `on_next` in
`controls.rs`).  One shallow embedding below therefore covers both copies;
line references are to `src/yew/table.rs` and `src/yew/controls.rs`, with the
matching lines in the dioxus files noted in CLAIMS' sources.
-/

namespace TableRs

/-- Sort order (`SortOrder` in `types.rs`): ascending or descending. -/
inductive SortOrder where
  | Asc
  | Desc
deriving DecidableEq, Repr

/-- A row of the table: `HashMap<&'static str, String>` in the source, modelled
as an association list from column key to value; `rowGet` returns the first
binding, matching `HashMap::get` (keys are unique in a `HashMap`, so first-wins
is faithful). -/
abbrev Row := List (String × String)

/-- Rust `row.get(key)` (`HashMap::get`). -/
def rowGet (r : Row) (k : String) : Option String :=
  (r.find? (fun p => p.1 == k)).map (fun p => p.2)

/-- Column descriptor (`Column` in `types.rs`): data key, display label, and
the sort-eligibility flag consulted by the header UI. -/
structure Column where
  id : String
  header : String
  sortable : Bool
deriving DecidableEq, Repr

/-- The view state owned by the host adapter: current page, sort column and
order, and the raw search text (the `use_state` / `use_signal` hooks in
`table.rs`). -/
structure ViewState where
  page : Nat
  sortColumn : Option String
  sortOrder : SortOrder
  searchQuery : String

/-- Rust `str::contains`: `pat` occurs as a contiguous substring of `s`.
UTF-8 byte-substring matches always align to character boundaries, so
character-list containment is the faithful model. -/
def strContains (s pat : String) : Bool :=
  decide (pat.data <:+: s.data)

/-- The per-row search predicate (`table.rs` 167–173) with the per-string
lowercase mapping abstracted as `lower`: some declared column's value,
lowercased, contains the lowercased query; a key absent from the row yields
`false` (`unwrap_or(false)`).  The source's mapping is Rust's
`str::to_lowercase`, the full Unicode lowercase mapping (including
multi-character expansions and the context-sensitive final sigma) — external
table data a shallow embedding cannot reproduce entry-for-entry, so the
filter's structure is stated and proved for an arbitrary `lower`;
instantiating `lower` with the program's mapping recovers the source filter
verbatim. -/
def rowMatchesL (lower : String → String) (columns : List Column) (q : String)
    (row : Row) : Bool :=
  columns.any (fun col =>
    ((rowGet row col.id).map (fun v => strContains (lower v) (lower q))).getD false)

/-- `filtered_indices` (`table.rs` 164–178) with the lowercase mapping
abstracted: indices of rows matching the query, in original order; the full
range when the query is empty. -/
def filtered_indicesL (lower : String → String) (data : List Row)
    (columns : List Column) (search_query : String) : List Nat :=
  if !search_query.isEmpty then
    ((data.enum.filter (fun p => rowMatchesL lower columns search_query p.2)).map
      (fun p => p.1))
  else
    List.range data.length

/-- The concrete per-row search predicate used by the executable pipeline
below.  `String.toLower` maps only ASCII letters, so it is a stand-in for
Rust's Unicode `to_lowercase` (they agree on ASCII data); every claim about
the filter's structure is proved over `rowMatchesL` for an arbitrary
lowercase mapping, and the pagination/sort claims below never depend on
which rows match. -/
def rowMatches (columns : List Column) (q : String) (row : Row) : Bool :=
  rowMatchesL String.toLower columns q row

/-- `filtered_indices` (`table.rs` 164–178): the `rowMatchesL` filter
instantiated with the executable stand-in lowercase mapping. -/
def filtered_indices (data : List Row) (columns : List Column) (search_query : String) : List Nat :=
  filtered_indicesL String.toLower data columns search_query

/-- The sort key of row index `a` (`table.rs` 185–186):
`data[a].get(col.id).unwrap_or(&"")` — a missing value compares as `""`. -/
def sortKey (data : List Row) (colId : String) (a : Nat) : String :=
  (rowGet (data.getD a []) colId).getD ""

/-- The "not greater" relation induced by the comparator passed to
`Vec::sort_by` (`table.rs` 184–191): `Asc` compares `a_val.cmp(b_val)`, `Desc`
compares `b_val.cmp(a_val)`; `cmp(x, y) != Greater` is `x ≤ y` in the
lexicographic string order. -/
def sortLe (data : List Row) (colId : String) (so : SortOrder) (a b : Nat) : Bool :=
  match so with
  | .Asc => decide (sortKey data colId a ≤ sortKey data colId b)
  | .Desc => decide (sortKey data colId b ≤ sortKey data colId a)

/-- The sort step (`table.rs` 180–192): if `sort_column` names a declared
column, stable-sort the indices by that column's value (`Vec::sort_by` is a
stable sort, modelled by `List.mergeSort`); otherwise leave them unchanged. -/
def sortStep (data : List Row) (columns : List Column) (sc : Option String)
    (so : SortOrder) (idxs : List Nat) : List Nat :=
  match sc with
  | none => idxs
  | some col_id =>
    match columns.find? (fun c => c.id == col_id) with
    | none => idxs
    | some col => idxs.mergeSort (sortLe data col.id so)

/-- The filtered-and-sorted index sequence fed to pagination. -/
def filteredSorted (data : List Row) (columns : List Column) (vs : ViewState) : List Nat :=
  sortStep data columns vs.sortColumn vs.sortOrder
    (filtered_indices data columns vs.searchQuery)

/-- `page_size_safe` (`table.rs` 195): a supplied page size of 0 is coerced
to 1. -/
def page_size_safe (page_size : Nat) : Nat :=
  max page_size 1

/-- `total_pages` (`table.rs` 197): `ceil(len / page_size_safe)`, at least 1.
The source computes the quotient in `f64`; for any `len` below `2^53` (and so
for every length on the 32-bit wasm target, and every physically realizable
`Vec` on 64-bit hosts) both operands are exactly representable and the
correctly rounded quotient has the exact rational ceiling — a rounding step
could only cross an integer if `len` were at least `2^53` — which equals the
integer `(len + s - 1) / s` used here. -/
def total_pages (nFiltered page_size : Nat) : Nat :=
  max ((nFiltered + page_size_safe page_size - 1) / page_size_safe page_size) 1

/-- `current_page` (`table.rs` 200): the raw page clamped to
`[0, total_pages - 1]` (`min` with `saturating_sub`, which is `Nat`
subtraction). -/
def current_page (page nFiltered page_size : Nat) : Nat :=
  min page (total_pages nFiltered page_size - 1)

/-- Result of one recomputation of the pipeline. -/
structure ViewResult where
  visibleRows : List Row
  totalPages : Nat
  clampedPage : Nat
deriving DecidableEq, Repr

/-- The whole query pipeline (`table.rs` 163–206): filter, stable sort, and
paginate; `page_rows` is the slice
`filtered_indices[start..end].map(|&idx| data[idx].clone())` with
`start = current_page * page_size_safe` and
`end = min((current_page + 1) * page_size_safe, len)`. -/
def computeView (data : List Row) (columns : List Column) (page_size : Nat)
    (vs : ViewState) : ViewResult :=
  let flt := filteredSorted data columns vs
  let cp := current_page vs.page flt.length page_size
  let start := cp * page_size_safe page_size
  let stop := min ((cp + 1) * page_size_safe page_size) flt.length
  { visibleRows := ((flt.drop start).take (stop - start)).map (fun i => data.getD i [])
    totalPages := total_pages flt.length page_size
    clampedPage := cp }

/-- `on_sort_column` (`table.rs` 208–222): clicking the current column flips
the order; clicking any other column selects it and resets to ascending. -/
def toggleSort (sort_column : Option String) (sort_order : SortOrder)
    (id : String) : Option String × SortOrder :=
  if some id = sort_column then
    (sort_column,
      match sort_order with
      | .Asc => .Desc
      | .Desc => .Asc)
  else
    (some id, .Asc)

/-- Direction of a pagination button press. -/
inductive Direction where
  | Previous
  | Next
deriving DecidableEq, Repr

/-- `on_prev` / `on_next` (`controls.rs` 14–32): previous decrements when the
page is positive, next increments only when `page + 1 < total_pages`; both are
no-ops otherwise. -/
def advancePage (page total_pages : Nat) (d : Direction) : Nat :=
  match d with
  | .Previous => if page > 0 then page - 1 else page
  | .Next => if page + 1 < total_pages then page + 1 else page

end TableRs

namespace TableRs

/-! ### Arithmetic helpers -/

lemma ceil_natCast_div (n s : Nat) (hs : 0 < s) :
    ⌈(n : ℚ) / (s : ℚ)⌉₊ = (n + s - 1) / s := by
  have hsq : (0 : ℚ) < (s : ℚ) := by exact_mod_cast hs
  rcases Nat.eq_zero_or_pos n with hn | hn
  · subst hn
    have hz : (0 + s - 1) / s = 0 := Nat.div_eq_of_lt (by omega)
    rw [hz]
    simp
  · have hk : (n + s - 1) / s = (n - 1) / s + 1 := by
      rw [show n + s - 1 = (n - 1) + s by omega, Nat.add_div_right _ hs]
    apply le_antisymm
    · rw [Nat.ceil_le, div_le_iff₀ hsq, hk]
      have h4 : n ≤ ((n - 1) / s + 1) * s := by
        have h1 := Nat.div_add_mod (n - 1) s
        have h2 := Nat.mod_lt (n - 1) hs
        have h3 : ((n - 1) / s + 1) * s = s * ((n - 1) / s) + s := by ring
        rw [h3]
        set p := s * ((n - 1) / s)
        omega
      exact_mod_cast h4
    · rw [hk]
      have h5 : (n - 1) / s * s ≤ n - 1 := Nat.div_mul_le_self _ _
      have h6 : (n - 1) / s < ⌈(n : ℚ) / (s : ℚ)⌉₊ := by
        rw [Nat.lt_ceil, lt_div_iff₀ hsq]
        exact_mod_cast Nat.lt_of_le_of_lt h5 (Nat.sub_lt hn Nat.one_pos)
      omega

/-! ### Claims -/

/-- Claim C1: for every dataset, view state and page size, the computed total
page count equals `max 1 ⌈len(filteredIndices) / effectivePageSize⌉` with the
ceiling taken over the exact rationals, where the effective page size is the
supplied one coerced to at least 1; in particular it is at least 1 even when
the filtered set is empty. -/
theorem C1_totalPages_eq_ceil (data : List Row) (columns : List Column)
    (page_size : Nat) (vs : ViewState) :
    (computeView data columns page_size vs).totalPages
        = max 1 ⌈((filteredSorted data columns vs).length : ℚ)
            / ((max page_size 1 : ℕ) : ℚ)⌉₊ ∧
      1 ≤ (computeView data columns page_size vs).totalPages := by
  constructor
  · show total_pages (filteredSorted data columns vs).length page_size = _
    rw [total_pages, page_size_safe,
      ceil_natCast_div _ _ (show 0 < max page_size 1 by omega)]
    exact Nat.max_comm _ _
  · show 1 ≤ total_pages (filteredSorted data columns vs).length page_size
    exact le_max_right _ _

/-- Claim C2 counterexample: with `currentPage = 5` and `totalPages = 3`, the
`Next` handler leaves the stale page unchanged (5), while the claimed formula
`min (totalPages - 1) (currentPage + 1)` gives 2. -/
theorem C2_counterexample :
    ¬ advancePage 5 3 .Next = min (3 - 1) (5 + 1) := by decide

/-- Claim C2 (amended): `Previous` yields `max 0 (currentPage - 1)` over the
integers; `Next` yields `min (totalPages - 1) (currentPage + 1)` whenever the
supplied page is in range (`currentPage < totalPages`), and leaves an
out-of-range page (`currentPage ≥ totalPages`) unchanged. -/
theorem C2_advancePage (page tp : Nat) :
    ((advancePage page tp .Previous : ℤ) = max 0 ((page : ℤ) - 1)) ∧
      (page < tp → advancePage page tp .Next = min (tp - 1) (page + 1)) ∧
      (tp ≤ page → advancePage page tp .Next = page) := by
  refine ⟨?_, ?_, ?_⟩
  · simp only [advancePage]
    split <;> omega
  · intro h
    simp only [advancePage]
    split <;> omega
  · intro h
    simp only [advancePage]
    split <;> omega

/-- Claim C2 witness: the amended statement at concrete inputs. -/
theorem C2_witness :
    advancePage 1 3 .Next = min (3 - 1) (1 + 1) ∧ advancePage 5 3 .Next = 5 :=
  ⟨(C2_advancePage 1 3).2.1 (by decide), (C2_advancePage 5 3).2.2 (by decide)⟩

/-- Claim C4: the clamped page is never negative and always strictly below
the total page count, and the clamp is idempotent: a raw page already in
`[0, totalPages)` passes through unchanged. -/
theorem C4_clampedPage (data : List Row) (columns : List Column)
    (page_size : Nat) (vs : ViewState) :
    0 ≤ (computeView data columns page_size vs).clampedPage ∧
      (computeView data columns page_size vs).clampedPage
        < (computeView data columns page_size vs).totalPages ∧
      (vs.page < (computeView data columns page_size vs).totalPages →
        (computeView data columns page_size vs).clampedPage = vs.page) := by
  have h1 : 1 ≤ total_pages (filteredSorted data columns vs).length page_size :=
    le_max_right _ _
  refine ⟨Nat.zero_le _, ?_, ?_⟩
  · show current_page vs.page (filteredSorted data columns vs).length page_size
      < total_pages (filteredSorted data columns vs).length page_size
    simp only [current_page]
    omega
  · intro h
    have h' : vs.page
        < total_pages (filteredSorted data columns vs).length page_size := h
    show current_page vs.page (filteredSorted data columns vs).length page_size
      = vs.page
    simp only [current_page]
    omega

/-- Claim C4 witness: with two one-row pages, the valid raw page 1 is kept
unchanged by the clamp. -/
theorem C4_witness :
    (computeView [[("a", "x")], [("a", "y")]] [⟨"a", "A", true⟩] 1
        ⟨1, none, .Asc, ""⟩).clampedPage = 1 :=
  (C4_clampedPage [[("a", "x")], [("a", "y")]] [⟨"a", "A", true⟩] 1
    ⟨1, none, .Asc, ""⟩).2.2 (by decide)

/-- Claim C8: clicking the currently sorted column keeps it and flips the
order; clicking any other column — including when no column is sorted —
selects it with ascending order. -/
theorem C8_toggleSort (c : Option String) (o : SortOrder) (k : String) :
    (c = some k →
        toggleSort c o k
          = (some k, match o with | .Asc => .Desc | .Desc => .Asc)) ∧
      (c ≠ some k → toggleSort c o k = (some k, .Asc)) := by
  constructor
  · intro h
    subst h
    simp [toggleSort]
  · intro h
    simp only [toggleSort]
    rw [if_neg (fun hh => h hh.symm)]

/-- Claim C8 witness: toggling the active column flips to descending, and
clicking a column when none is sorted selects it ascending. -/
theorem C8_witness :
    toggleSort (some "name") .Asc "name" = (some "name", .Desc) ∧
      toggleSort none .Asc "name" = (some "name", .Asc) :=
  ⟨(C8_toggleSort (some "name") .Asc "name").1 rfl,
    (C8_toggleSort none .Asc "name").2 (by decide)⟩

/-- Claim C9: the view computation is deterministic — two applications with
identical inputs produce identical outputs.  The embedding is a pure function
of `(data, columns, page_size, viewState)`, so the inputs themselves are
values the computation cannot modify. -/
theorem C9_deterministic (d₁ d₂ : List Row) (c₁ c₂ : List Column)
    (p₁ p₂ : Nat) (v₁ v₂ : ViewState)
    (hd : d₁ = d₂) (hc : c₁ = c₂) (hp : p₁ = p₂) (hv : v₁ = v₂) :
    computeView d₁ c₁ p₁ v₁ = computeView d₂ c₂ p₂ v₂ := by
  subst hd
  subst hc
  subst hp
  subst hv
  rfl

/-- Claim C9 witness: determinism at a concrete input. -/
theorem C9_witness :
    computeView [[("a", "x")]] [⟨"a", "A", true⟩] 10 ⟨0, none, .Asc, ""⟩
      = computeView [[("a", "x")]] [⟨"a", "A", true⟩] 10 ⟨0, none, .Asc, ""⟩ :=
  C9_deterministic _ _ _ _ _ _ _ _ rfl rfl rfl rfl

end TableRs

namespace TableRs

/-! ### Filter-stage helpers -/

lemma optMatch_getD_iff (o : Option String) (f : String → Bool) :
    ((o.map f).getD false = true) ↔ ∃ v, o = some v ∧ f v = true := by
  cases o <;> simp

lemma rowMatchesL_iff (lower : String → String) (columns : List Column)
    (q : String) (row : Row) :
    rowMatchesL lower columns q row = true ↔
      ∃ col ∈ columns, ∃ v, rowGet row col.id = some v ∧
        strContains (lower v) (lower q) = true := by
  simp only [rowMatchesL, List.any_eq_true, optMatch_getD_iff]

lemma filtered_indicesL_empty_query (lower : String → String) (data : List Row)
    (columns : List Column) (q : String) (hq : q.isEmpty = true) :
    filtered_indicesL lower data columns q = List.range data.length := by
  unfold filtered_indicesL
  rw [hq]
  rfl

lemma mem_filtered_indicesL (lower : String → String) (data : List Row)
    (columns : List Column) (q : String) (i : Nat) :
    i ∈ filtered_indicesL lower data columns q ↔
      ∃ row, data[i]? = some row ∧
        (q.isEmpty || rowMatchesL lower columns q row) = true := by
  cases hq : q.isEmpty with
  | true =>
    rw [filtered_indicesL_empty_query lower data columns q hq]
    simp only [Bool.true_or, and_true, List.mem_range]
    constructor
    · intro hlt
      exact ⟨data[i], (List.getElem?_eq_some_iff).2 ⟨hlt, rfl⟩⟩
    · rintro ⟨row, hrow⟩
      exact ((List.getElem?_eq_some_iff).1 hrow).1
  | false =>
    unfold filtered_indicesL
    rw [hq]
    simp only [Bool.not_false, if_pos rfl, Bool.false_or]
    constructor
    · intro h
      obtain ⟨p, hp, hpi⟩ := List.mem_map.1 h
      obtain ⟨j, row⟩ := p
      obtain ⟨hmem, hmatch⟩ := List.mem_filter.1 hp
      rcases hpi
      exact ⟨row, List.mk_mem_enum_iff_getElem?.1 hmem, hmatch⟩
    · rintro ⟨row, hrow, hmatch⟩
      exact List.mem_map.2 ⟨(i, row),
        List.mem_filter.2 ⟨List.mk_mem_enum_iff_getElem?.2 hrow, hmatch⟩, rfl⟩

lemma filtered_indicesL_pairwise (lower : String → String) (data : List Row)
    (columns : List Column) (q : String) :
    (filtered_indicesL lower data columns q).Pairwise (· < ·) := by
  unfold filtered_indicesL
  split
  · have hfst : (fun p : Nat × Row => p.1) = Prod.fst := rfl
    have h : (((data.enum.filter fun p => rowMatchesL lower columns q p.2).map
          fun p => p.1).Sublist (data.enum.map fun p => p.1)) :=
      (List.filter_sublist _).map _
    rw [hfst, List.enum_map_fst] at h
    rw [hfst]
    exact (List.pairwise_lt_range _).sublist h
  · exact List.pairwise_lt_range _

lemma filtered_indicesL_lt_length (lower : String → String) (data : List Row)
    (columns : List Column) (q : String) (i : Nat)
    (h : i ∈ filtered_indicesL lower data columns q) :
    i < data.length := by
  obtain ⟨row, hrow, -⟩ := (mem_filtered_indicesL lower data columns q i).1 h
  exact (List.getElem?_eq_some_iff.1 hrow).1

lemma filtered_indices_pairwise (data : List Row) (columns : List Column)
    (q : String) :
    (filtered_indices data columns q).Pairwise (· < ·) :=
  filtered_indicesL_pairwise String.toLower data columns q

lemma filtered_indices_lt_length (data : List Row) (columns : List Column)
    (q : String) (i : Nat) (h : i ∈ filtered_indices data columns q) :
    i < data.length :=
  filtered_indicesL_lt_length String.toLower data columns q i h

end TableRs

namespace TableRs

/-- Claim C3: for every per-string lowercase mapping — in particular the
Unicode `str::to_lowercase` the program applies — with an empty search query
the filter is the identity pass-through, yielding `[0 .. len(rows))` in
original order; with a non-empty query, index `i` is kept — the output being
strictly increasing — iff some declared column's value for row `i`,
lowercased, contains the lowercased query as a substring; a column whose key
is absent from a row is simply non-matching, never an error. -/
theorem C3_filter (lower : String → String) (data : List Row)
    (columns : List Column) (q : String) :
    (q = "" → filtered_indicesL lower data columns q = List.range data.length) ∧
      (q ≠ "" → ∀ i : Nat,
        (i ∈ filtered_indicesL lower data columns q ↔
          ∃ row, data[i]? = some row ∧
            ∃ col ∈ columns, ∃ v, rowGet row col.id = some v ∧
              strContains (lower v) (lower q) = true)) ∧
      (filtered_indicesL lower data columns q).Pairwise (· < ·) := by
  refine ⟨?_, ?_, filtered_indicesL_pairwise lower data columns q⟩
  · intro hq
    subst hq
    exact filtered_indicesL_empty_query lower data columns "" rfl
  · intro hq i
    rw [mem_filtered_indicesL]
    have hne : q.isEmpty = false := by
      rw [Bool.eq_false_iff]
      intro hh
      exact hq ((String.isEmpty_iff q).1 hh)
    simp only [hne, Bool.false_or, rowMatchesL_iff]

/-- Claim C3 witness: instantiated at a concrete lowercase mapping on the
spec's worked example — membership of row 0 under query `"ferris"` is
equivalent to a matching column existing, and the empty query yields the
identity range. -/
theorem C3_witness :
    ((0 : Nat) ∈ filtered_indicesL String.toLower
        [[("name", "Ferris"), ("email", "ferris@x.org")],
          [("name", "Ferros"), ("email", "ferros@x.org")]]
        [⟨"name", "Name", true⟩, ⟨"email", "Email", false⟩] "ferris" ↔
      ∃ row,
        ([[("name", "Ferris"), ("email", "ferris@x.org")],
            [("name", "Ferros"), ("email", "ferros@x.org")]] : List Row)[(0 : Nat)]?
            = some row ∧
          ∃ col ∈ [Column.mk "name" "Name" true, Column.mk "email" "Email" false],
            ∃ v, rowGet row col.id = some v ∧
              strContains (String.toLower v)
                (String.toLower ("ferris" : String)) = true) ∧
      filtered_indicesL String.toLower
          [[("name", "Ferris"), ("email", "ferris@x.org")],
            [("name", "Ferros"), ("email", "ferros@x.org")]]
          [⟨"name", "Name", true⟩, ⟨"email", "Email", false⟩] ""
        = List.range 2 :=
  ⟨(C3_filter String.toLower _ _ "ferris").2.1 (by decide) 0,
    (C3_filter String.toLower _ _ "").1 rfl⟩

end TableRs

namespace TableRs

/-! ### Sort-stage helpers -/

lemma sortLe_trans (data : List Row) (colId : String) (so : SortOrder) :
    ∀ a b c : Nat, sortLe data colId so a b → sortLe data colId so b c →
      sortLe data colId so a c := by
  intro a b c hab hbc
  cases so with
  | Asc =>
    simp only [sortLe, decide_eq_true_eq] at hab hbc ⊢
    exact le_trans hab hbc
  | Desc =>
    simp only [sortLe, decide_eq_true_eq] at hab hbc ⊢
    exact le_trans hbc hab

lemma sortLe_total (data : List Row) (colId : String) (so : SortOrder) :
    ∀ a b : Nat, sortLe data colId so a b || sortLe data colId so b a := by
  intro a b
  cases so <;>
    simp only [sortLe, Bool.or_eq_true, decide_eq_true_eq] <;>
    exact le_total _ _

lemma sortStep_not_found (data : List Row) (columns : List Column)
    (colId : String) (so : SortOrder) (idxs : List Nat)
    (h : columns.find? (fun c => c.id == colId) = none) :
    sortStep data columns (some colId) so idxs = idxs := by
  show (match columns.find? (fun c => c.id == colId) with
    | none => idxs
    | some col => idxs.mergeSort (sortLe data col.id so)) = idxs
  rw [h]

lemma sortStep_found (data : List Row) (columns : List Column)
    (colId : String) (col : Column) (so : SortOrder) (idxs : List Nat)
    (h : columns.find? (fun c => c.id == colId) = some col) :
    sortStep data columns (some colId) so idxs
      = idxs.mergeSort (sortLe data col.id so) := by
  show (match columns.find? (fun c => c.id == colId) with
    | none => idxs
    | some col => idxs.mergeSort (sortLe data col.id so))
      = idxs.mergeSort (sortLe data col.id so)
  rw [h]

lemma sortStep_perm (data : List Row) (columns : List Column)
    (sc : Option String) (so : SortOrder) (idxs : List Nat) :
    (sortStep data columns sc so idxs).Perm idxs := by
  cases sc with
  | none => exact List.Perm.refl _
  | some colId =>
    cases h : columns.find? (fun c => c.id == colId) with
    | none =>
      rw [sortStep_not_found data columns colId so idxs h]
    | some col =>
      rw [sortStep_found data columns colId col so idxs h]
      exact List.mergeSort_perm _ _

lemma mem_sortStep (data : List Row) (columns : List Column)
    (sc : Option String) (so : SortOrder) (idxs : List Nat) (i : Nat) :
    i ∈ sortStep data columns sc so idxs ↔ i ∈ idxs :=
  (sortStep_perm data columns sc so idxs).mem_iff

lemma sortStep_sorted (data : List Row) (columns : List Column)
    (colId : String) (col : Column) (so : SortOrder) (idxs : List Nat)
    (h : columns.find? (fun c => c.id == colId) = some col) :
    (sortStep data columns (some colId) so idxs).Pairwise
      (fun a b => sortLe data col.id so a b = true) := by
  rw [sortStep_found data columns colId col so idxs h]
  exact List.sorted_mergeSort (sortLe_trans data col.id so)
    (sortLe_total data col.id so) idxs

lemma sortStep_pair_sublist (data : List Row) (columns : List Column)
    (colId : String) (col : Column) (so : SortOrder) (a b : Nat)
    (idxs : List Nat)
    (h : columns.find? (fun c => c.id == colId) = some col)
    (hle : sortLe data col.id so a b = true)
    (hab : ([a, b] : List Nat).Sublist idxs) :
    ([a, b] : List Nat).Sublist (sortStep data columns (some colId) so idxs) := by
  rw [sortStep_found data columns colId col so idxs h]
  exact List.sublist_mergeSort (sortLe_trans data col.id so)
    (sortLe_total data col.id so) (List.pairwise_pair.2 hle) hab

lemma pair_sublist_or_of_mem {a b : Nat} {l : List Nat} (hne : a ≠ b)
    (ha : a ∈ l) (hb : b ∈ l) :
    ([a, b] : List Nat).Sublist l ∨ ([b, a] : List Nat).Sublist l := by
  induction l with
  | nil => cases ha
  | cons c t ih =>
    rcases List.mem_cons.1 ha with rfl | ha'
    · have hb' : b ∈ t := by
        rcases List.mem_cons.1 hb with rfl | h
        · exact absurd rfl hne
        · exact h
      exact Or.inl ((List.singleton_sublist.2 hb').cons₂ _)
    · rcases List.mem_cons.1 hb with rfl | hb'
      · exact Or.inr ((List.singleton_sublist.2 ha').cons₂ _)
      · rcases ih ha' hb' with h | h
        · exact Or.inl (h.cons _)
        · exact Or.inr (h.cons _)

lemma rel_of_pairwise_pair_sublist {R : Nat → Nat → Prop} {a b : Nat}
    {l : List Nat} (h : ([a, b] : List Nat).Sublist l) (hp : l.Pairwise R) :
    R a b :=
  List.pairwise_pair.1 (hp.sublist h)

lemma filteredSorted_sorted_asc (data : List Row) (columns : List Column)
    (vs : ViewState) (colId : String) (col : Column)
    (hsc : vs.sortColumn = some colId)
    (hfind : columns.find? (fun c => c.id == colId) = some col)
    (hso : vs.sortOrder = .Asc) :
    (filteredSorted data columns vs).Pairwise
      (fun a b => sortKey data col.id a ≤ sortKey data col.id b) := by
  unfold filteredSorted
  rw [hsc, hso]
  have h := sortStep_sorted data columns colId col .Asc
    (filtered_indices data columns vs.searchQuery) hfind
  exact h.imp (fun hab => by simpa [sortLe] using hab)

lemma filteredSorted_sorted_desc (data : List Row) (columns : List Column)
    (vs : ViewState) (colId : String) (col : Column)
    (hsc : vs.sortColumn = some colId)
    (hfind : columns.find? (fun c => c.id == colId) = some col)
    (hso : vs.sortOrder = .Desc) :
    (filteredSorted data columns vs).Pairwise
      (fun a b => sortKey data col.id b ≤ sortKey data col.id a) := by
  unfold filteredSorted
  rw [hsc, hso]
  have h := sortStep_sorted data columns colId col .Desc
    (filtered_indices data columns vs.searchQuery) hfind
  exact h.imp (fun hab => by simpa [sortLe] using hab)

end TableRs

namespace TableRs

/-- Claim C6: when `sortColumn` names a declared column, the filtered indices
are stable-sorted by that column's value under the lexicographic string order
(a missing value comparing as the empty string, which is what `sortKey`
yields): the result is a permutation of the filter output, pairwise ordered
by the column value in the requested direction, and any two indices tied on
that value keep their filter-order relative position.  When `sortColumn` is
unset or names no declared column, the filter order is kept unchanged. -/
theorem C6_sort (data : List Row) (columns : List Column) (vs : ViewState) :
    (∀ colId col, vs.sortColumn = some colId →
        columns.find? (fun c => c.id == colId) = some col →
          ((filteredSorted data columns vs).Perm
              (filtered_indices data columns vs.searchQuery) ∧
            (vs.sortOrder = .Asc →
              (filteredSorted data columns vs).Pairwise
                (fun a b => sortKey data col.id a ≤ sortKey data col.id b)) ∧
            (vs.sortOrder = .Desc →
              (filteredSorted data columns vs).Pairwise
                (fun a b => sortKey data col.id b ≤ sortKey data col.id a)) ∧
            (∀ a b : Nat,
              ([a, b] : List Nat).Sublist
                  (filtered_indices data columns vs.searchQuery) →
                sortKey data col.id a = sortKey data col.id b →
                  ([a, b] : List Nat).Sublist (filteredSorted data columns vs)))) ∧
      ((vs.sortColumn = none ∨
          ∃ colId, vs.sortColumn = some colId ∧
            columns.find? (fun c => c.id == colId) = none) →
        filteredSorted data columns vs
          = filtered_indices data columns vs.searchQuery) := by
  constructor
  · intro colId col hsc hfind
    refine ⟨?_, ?_, ?_, ?_⟩
    · unfold filteredSorted
      rw [hsc]
      exact sortStep_perm data columns (some colId) vs.sortOrder _
    · intro hso
      exact filteredSorted_sorted_asc data columns vs colId col hsc hfind hso
    · intro hso
      exact filteredSorted_sorted_desc data columns vs colId col hsc hfind hso
    · intro a b hab heq
      unfold filteredSorted
      rw [hsc]
      refine sortStep_pair_sublist data columns colId col vs.sortOrder a b _ hfind ?_ hab
      cases vs.sortOrder <;> simp [sortLe, heq]
  · intro hnone
    rcases hnone with h | ⟨colId, hsc, hfind⟩
    · unfold filteredSorted
      rw [h]
      rfl
    · unfold filteredSorted
      rw [hsc]
      exact sortStep_not_found data columns colId vs.sortOrder _ hfind

/-- Claim C6 witness: on a four-row dataset with values `"b"`, `"a"`, `"a"`
and a missing key, ascending sort by the declared column gives a permutation
of the filter output that is pairwise ordered, and the tied rows 1 and 2 keep
their relative position; with no sort column the filter order is unchanged. -/
theorem C6_witness :
    ((filteredSorted [[("v", "b")], [("v", "a")], [("v", "a")], []]
          [⟨"v", "V", true⟩] ⟨0, some "v", .Asc, ""⟩).Perm
        (filtered_indices [[("v", "b")], [("v", "a")], [("v", "a")], []]
          [⟨"v", "V", true⟩] "") ∧
        ([1, 2] : List Nat).Sublist
          (filteredSorted [[("v", "b")], [("v", "a")], [("v", "a")], []]
            [⟨"v", "V", true⟩] ⟨0, some "v", .Asc, ""⟩)) ∧
      filteredSorted [[("v", "b")], [("v", "a")], [("v", "a")], []]
          [⟨"v", "V", true⟩] ⟨0, none, .Asc, ""⟩
        = filtered_indices [[("v", "b")], [("v", "a")], [("v", "a")], []]
          [⟨"v", "V", true⟩] "" :=
  ⟨⟨((C6_sort [[("v", "b")], [("v", "a")], [("v", "a")], []] [⟨"v", "V", true⟩]
        ⟨0, some "v", .Asc, ""⟩).1 "v" ⟨"v", "V", true⟩ rfl (by decide)).1,
      ((C6_sort [[("v", "b")], [("v", "a")], [("v", "a")], []] [⟨"v", "V", true⟩]
        ⟨0, some "v", .Asc, ""⟩).1 "v" ⟨"v", "V", true⟩ rfl (by decide)).2.2.2
        1 2 (by decide) (by decide)⟩,
    (C6_sort [[("v", "b")], [("v", "a")], [("v", "a")], []] [⟨"v", "V", true⟩]
        ⟨0, none, .Asc, ""⟩).2 (Or.inl rfl)⟩

end TableRs

namespace TableRs

/-- Claim C7: on the same filtered set, sorting by a declared column
ascending and then descending yields exactly reversed relative order for
every pair of rows with distinct values in that column, while every pair
tied on that column keeps its filter-order relative position under both
directions — `Desc` flips the two-argument comparison, not the final list. -/
theorem C7_asc_desc_reversal (data : List Row) (columns : List Column)
    (q : String) (colId : String) (col : Column)
    (hfind : columns.find? (fun c => c.id == colId) = some col)
    (a b : Nat)
    (hab : ([a, b] : List Nat).Sublist (filtered_indices data columns q)) :
    (sortKey data col.id a ≠ sortKey data col.id b →
        (([a, b] : List Nat).Sublist
            (sortStep data columns (some colId) .Asc
              (filtered_indices data columns q)) ↔
          ([b, a] : List Nat).Sublist
            (sortStep data columns (some colId) .Desc
              (filtered_indices data columns q)))) ∧
      (sortKey data col.id a = sortKey data col.id b →
        ([a, b] : List Nat).Sublist
            (sortStep data columns (some colId) .Asc
              (filtered_indices data columns q)) ∧
          ([a, b] : List Nat).Sublist
            (sortStep data columns (some colId) .Desc
              (filtered_indices data columns q))) := by
  have hltab : a < b :=
    rel_of_pairwise_pair_sublist hab (filtered_indices_pairwise data columns q)
  have hne : a ≠ b := Nat.ne_of_lt hltab
  have haF : a ∈ filtered_indices data columns q :=
    hab.subset (by simp)
  have hbF : b ∈ filtered_indices data columns q :=
    hab.subset (by simp)
  have haD : a ∈ sortStep data columns (some colId) .Desc
      (filtered_indices data columns q) :=
    (mem_sortStep data columns (some colId) .Desc _ a).2 haF
  have hbD : b ∈ sortStep data columns (some colId) .Desc
      (filtered_indices data columns q) :=
    (mem_sortStep data columns (some colId) .Desc _ b).2 hbF
  have hsortedA := sortStep_sorted data columns colId col .Asc
    (filtered_indices data columns q) hfind
  have hsortedD := sortStep_sorted data columns colId col .Desc
    (filtered_indices data columns q) hfind
  constructor
  · intro hkne
    rcases lt_or_gt_of_ne hkne with hlt | hgt
    · have hA : ([a, b] : List Nat).Sublist
          (sortStep data columns (some colId) .Asc
            (filtered_indices data columns q)) :=
        sortStep_pair_sublist data columns colId col .Asc a b _ hfind
          (by simp [sortLe, le_of_lt hlt]) hab
      have hD : ([b, a] : List Nat).Sublist
          (sortStep data columns (some colId) .Desc
            (filtered_indices data columns q)) := by
        rcases pair_sublist_or_of_mem hne haD hbD with h | h
        · exfalso
          have := rel_of_pairwise_pair_sublist h hsortedD
          rw [sortLe, decide_eq_true_eq] at this
          exact absurd hlt (not_lt.2 this)
        · exact h
      exact iff_of_true hA hD
    · have hnA : ¬ ([a, b] : List Nat).Sublist
          (sortStep data columns (some colId) .Asc
            (filtered_indices data columns q)) := by
        intro h
        have := rel_of_pairwise_pair_sublist h hsortedA
        rw [sortLe, decide_eq_true_eq] at this
        exact absurd hgt (not_lt.2 this)
      have hnD : ¬ ([b, a] : List Nat).Sublist
          (sortStep data columns (some colId) .Desc
            (filtered_indices data columns q)) := by
        intro h
        have := rel_of_pairwise_pair_sublist h hsortedD
        rw [sortLe, decide_eq_true_eq] at this
        exact absurd hgt (not_lt.2 this)
      exact iff_of_false hnA hnD
  · intro hkeq
    constructor
    · exact sortStep_pair_sublist data columns colId col .Asc a b _ hfind
        (by simp [sortLe, hkeq]) hab
    · exact sortStep_pair_sublist data columns colId col .Desc a b _ hfind
        (by simp [sortLe, hkeq]) hab

/-- Claim C7 witness: rows with column values `"b"`, `"a"`, `"a"`: for the
distinct pair (0, 1), order `[0, 1]` ascending holds exactly when the
reversed order `[1, 0]` holds descending; and the tied pair (1, 2) keeps its
filter order under the descending direction as well. -/
theorem C7_witness :
    (([0, 1] : List Nat).Sublist
        (sortStep [[("v", "b")], [("v", "a")], [("v", "a")]]
          [⟨"v", "V", true⟩] (some "v") .Asc
          (filtered_indices [[("v", "b")], [("v", "a")], [("v", "a")]]
            [⟨"v", "V", true⟩] "")) ↔
      ([1, 0] : List Nat).Sublist
        (sortStep [[("v", "b")], [("v", "a")], [("v", "a")]]
          [⟨"v", "V", true⟩] (some "v") .Desc
          (filtered_indices [[("v", "b")], [("v", "a")], [("v", "a")]]
            [⟨"v", "V", true⟩] ""))) ∧
      ([1, 2] : List Nat).Sublist
        (sortStep [[("v", "b")], [("v", "a")], [("v", "a")]]
          [⟨"v", "V", true⟩] (some "v") .Desc
          (filtered_indices [[("v", "b")], [("v", "a")], [("v", "a")]]
            [⟨"v", "V", true⟩] "")) :=
  ⟨(C7_asc_desc_reversal [[("v", "b")], [("v", "a")], [("v", "a")]]
      [⟨"v", "V", true⟩] "" "v" ⟨"v", "V", true⟩ (by decide) 0 1
      (by decide)).1 (by decide),
    ((C7_asc_desc_reversal [[("v", "b")], [("v", "a")], [("v", "a")]]
      [⟨"v", "V", true⟩] "" "v" ⟨"v", "V", true⟩ (by decide) 1 2
      (by decide)).2 (by decide)).2⟩

end TableRs

namespace TableRs

/-! ### Pagination-window helpers -/

lemma page_size_safe_pos (ps : Nat) : 0 < page_size_safe ps := by
  unfold page_size_safe
  omega

lemma total_pages_succ (n ps : Nat) (hn : 0 < n) :
    total_pages n ps = (n - 1) / page_size_safe ps + 1 := by
  have hs : 0 < page_size_safe ps := page_size_safe_pos ps
  unfold total_pages
  rw [show n + page_size_safe ps - 1 = (n - 1) + page_size_safe ps by omega,
    Nat.add_div_right _ hs]
  exact Nat.max_eq_left (Nat.le_add_left 1 _)

lemma start_lt_length (n ps page : Nat) (hn : 0 < n) :
    current_page page n ps * page_size_safe ps < n := by
  have hcp : current_page page n ps ≤ (n - 1) / page_size_safe ps := by
    unfold current_page
    rw [total_pages_succ n ps hn]
    simp
  calc current_page page n ps * page_size_safe ps
      ≤ (n - 1) / page_size_safe ps * page_size_safe ps :=
        Nat.mul_le_mul_right _ hcp
    _ ≤ n - 1 := Nat.div_mul_le_self _ _
    _ < n := by omega

lemma filteredSorted_lt_length (data : List Row) (columns : List Column)
    (vs : ViewState) (i : Nat) (h : i ∈ filteredSorted data columns vs) :
    i < data.length := by
  have hF : i ∈ filtered_indices data columns vs.searchQuery :=
    (mem_sortStep data columns vs.sortColumn vs.sortOrder _ i).1 h
  exact filtered_indices_lt_length data columns vs.searchQuery i hF

lemma length_page_rows_le (L : List Nat) (data : List Row) (st sp : Nat) :
    ((((L.drop st).take (sp - st)).map
        (fun i => data.getD i ([] : Row))).length) ≤ sp - st := by
  rw [List.length_map, List.length_take]
  exact min_le_left _ _

/-- Claim C5 counterexample: with one row, no columns, supplied page size 0,
page 0 and an empty query, the engine shows one row, so `visibleRows` is not
the slice `filteredIndices[0*0 .. min(1, 1*0)] = []` that the claim's raw
`pageSize` formulas give, and its length exceeds the supplied page size 0. -/
theorem C5_counterexample :
    ¬ (computeView [[("name", "a")]] [] 0
        ⟨0, none, .Asc, ""⟩).visibleRows.length ≤ 0 := by decide

/-- Claim C5 (amended): for every input — any dataset, any page size
including 0, any raw page, any query, any sort column — the computation is
total, with every `pageSize` occurrence in the window formulas read as the
effective page size `max pageSize 1`: the slice bounds satisfy
`clampedPage*s ≤ min(len, (clampedPage+1)*s) ≤ len`, every filtered index is
in bounds for the dataset (so no out-of-bounds access is reachable),
`visibleRows` has length at most the effective page size, and each visible
row is drawn from the filtered indices, never from unfiltered data. -/
theorem C5_window_safety (data : List Row) (columns : List Column)
    (page_size : Nat) (vs : ViewState) :
    ((computeView data columns page_size vs).clampedPage * max page_size 1
        ≤ min (filteredSorted data columns vs).length
            (((computeView data columns page_size vs).clampedPage + 1)
              * max page_size 1) ∧
      min (filteredSorted data columns vs).length
          (((computeView data columns page_size vs).clampedPage + 1)
            * max page_size 1)
        ≤ (filteredSorted data columns vs).length) ∧
      (∀ i ∈ filteredSorted data columns vs, i < data.length) ∧
      (computeView data columns page_size vs).visibleRows.length
        ≤ max page_size 1 ∧
      (∀ r ∈ (computeView data columns page_size vs).visibleRows,
        ∃ i ∈ filteredSorted data columns vs, data[i]? = some r) := by
  have hcp : (computeView data columns page_size vs).clampedPage
      = current_page vs.page (filteredSorted data columns vs).length page_size :=
    rfl
  have hstart : current_page vs.page (filteredSorted data columns vs).length
        page_size * page_size_safe page_size
      ≤ (filteredSorted data columns vs).length := by
    rcases Nat.eq_zero_or_pos (filteredSorted data columns vs).length with hz | hpos
    · rw [hz]
      have h0 : current_page vs.page 0 page_size = 0 := by
        unfold current_page total_pages
        have hdiv : (0 + page_size_safe page_size - 1) / page_size_safe page_size
            = 0 :=
          Nat.div_eq_of_lt (by have := page_size_safe_pos page_size; omega)
        rw [hdiv]
        simp
      rw [h0, Nat.zero_mul]
    · exact le_of_lt (start_lt_length _ page_size vs.page hpos)
  refine ⟨⟨?_, min_le_left _ _⟩, ?_, ?_, ?_⟩
  · rw [hcp]
    exact le_min hstart (Nat.mul_le_mul_right _ (Nat.le_succ _))
  · exact fun i hi => filteredSorted_lt_length data columns vs i hi
  · have hle : (computeView data columns page_size vs).visibleRows.length
        ≤ min ((current_page vs.page (filteredSorted data columns vs).length
              page_size + 1) * page_size_safe page_size)
            (filteredSorted data columns vs).length
          - current_page vs.page (filteredSorted data columns vs).length
              page_size * page_size_safe page_size :=
      length_page_rows_le (filteredSorted data columns vs) data
        (current_page vs.page (filteredSorted data columns vs).length page_size
          * page_size_safe page_size)
        (min ((current_page vs.page (filteredSorted data columns vs).length
            page_size + 1) * page_size_safe page_size)
          (filteredSorted data columns vs).length)
    have hmul : (current_page vs.page (filteredSorted data columns vs).length
          page_size + 1) * page_size_safe page_size
        = current_page vs.page (filteredSorted data columns vs).length page_size
            * page_size_safe page_size + page_size_safe page_size := by
      ring
    have hfin : min ((current_page vs.page (filteredSorted data columns vs).length
            page_size + 1) * page_size_safe page_size)
          (filteredSorted data columns vs).length
          - current_page vs.page (filteredSorted data columns vs).length
              page_size * page_size_safe page_size
        ≤ page_size_safe page_size := by
      rw [hmul]
      set X := current_page vs.page (filteredSorted data columns vs).length
        page_size * page_size_safe page_size with hX
      omega
    exact le_trans hle hfin
  · intro r hr
    have hr' : r ∈ (((filteredSorted data columns vs).drop
          (current_page vs.page (filteredSorted data columns vs).length page_size
            * page_size_safe page_size)).take
          (min ((current_page vs.page (filteredSorted data columns vs).length
              page_size + 1) * page_size_safe page_size)
            (filteredSorted data columns vs).length
            - current_page vs.page (filteredSorted data columns vs).length
                page_size * page_size_safe page_size)).map
          (fun i => data.getD i ([] : Row)) := hr
    obtain ⟨i, hi, hir⟩ := List.mem_map.1 hr'
    have hiflt : i ∈ filteredSorted data columns vs :=
      List.mem_of_mem_drop (List.mem_of_mem_take hi)
    have hilt : i < data.length := filteredSorted_lt_length data columns vs i hiflt
    have hsome : data[i]? = some data[i] := List.getElem?_eq_getElem hilt
    refine ⟨i, hiflt, ?_⟩
    rw [← hir, List.getD_eq_getElem?_getD, hsome]
    rfl

/-- Claim C5 witness: the spec's pagination scenario — 25 one-column rows,
page size 10, raw page 2 — yields a valid window whose last page shows at
most 10 rows. -/
theorem C5_witness :
    min (filteredSorted (List.replicate 25 [("n", "x")]) [⟨"n", "N", true⟩]
          ⟨2, none, .Asc, ""⟩).length
        (((computeView (List.replicate 25 [("n", "x")]) [⟨"n", "N", true⟩] 10
              ⟨2, none, .Asc, ""⟩).clampedPage + 1) * max 10 1)
      ≤ (filteredSorted (List.replicate 25 [("n", "x")]) [⟨"n", "N", true⟩]
          ⟨2, none, .Asc, ""⟩).length ∧
    (computeView (List.replicate 25 [("n", "x")]) [⟨"n", "N", true⟩] 10
        ⟨2, none, .Asc, ""⟩).visibleRows.length ≤ max 10 1 :=
  ⟨(C5_window_safety (List.replicate 25 [("n", "x")]) [⟨"n", "N", true⟩] 10
      ⟨2, none, .Asc, ""⟩).1.2,
    (C5_window_safety (List.replicate 25 [("n", "x")]) [⟨"n", "N", true⟩] 10
      ⟨2, none, .Asc, ""⟩).2.2.1⟩

end TableRs

namespace TableRs

/-! ### Sortable-flag independence helpers -/

lemma rowMatchesL_flag (lower : String → String) (columns : List Column)
    (q : String) (row : Row) (bl : Bool) :
    rowMatchesL lower (columns.map (fun c => { c with sortable := bl })) q row
      = rowMatchesL lower columns q row := by
  unfold rowMatchesL
  rw [List.any_map]
  rfl

lemma filtered_indicesL_flag (lower : String → String) (data : List Row)
    (columns : List Column) (q : String) (bl : Bool) :
    filtered_indicesL lower data
        (columns.map (fun c => { c with sortable := bl })) q
      = filtered_indicesL lower data columns q := by
  unfold filtered_indicesL
  simp only [rowMatchesL_flag]

lemma filtered_indices_flag (data : List Row) (columns : List Column)
    (q : String) (bl : Bool) :
    filtered_indices data (columns.map (fun c => { c with sortable := bl })) q
      = filtered_indices data columns q :=
  filtered_indicesL_flag String.toLower data columns q bl

lemma find?_flag (columns : List Column) (colId : String) (bl : Bool) :
    (columns.map (fun c => { c with sortable := bl })).find?
        (fun c => c.id == colId)
      = (columns.find? (fun c => c.id == colId)).map
          (fun c => { c with sortable := bl }) := by
  rw [List.find?_map]
  rfl

lemma sortStep_flag (data : List Row) (columns : List Column)
    (sc : Option String) (so : SortOrder) (idxs : List Nat) (bl : Bool) :
    sortStep data (columns.map (fun c => { c with sortable := bl })) sc so idxs
      = sortStep data columns sc so idxs := by
  cases sc with
  | none => rfl
  | some colId =>
    show (match (columns.map (fun c => { c with sortable := bl })).find?
          (fun c => c.id == colId) with
      | none => idxs
      | some col => idxs.mergeSort (sortLe data col.id so))
      = (match columns.find? (fun c => c.id == colId) with
      | none => idxs
      | some col => idxs.mergeSort (sortLe data col.id so))
    rw [find?_flag]
    cases columns.find? (fun c => c.id == colId) with
    | none => rfl
    | some col => rfl

lemma filteredSorted_flag (data : List Row) (columns : List Column)
    (vs : ViewState) (bl : Bool) :
    filteredSorted data (columns.map (fun c => { c with sortable := bl })) vs
      = filteredSorted data columns vs := by
  unfold filteredSorted
  rw [filtered_indices_flag, sortStep_flag]

/-- Claim C10: the `sortable` flag is never consulted by the query pipeline —
replacing every column's flag leaves the computed view unchanged — and a view
state whose `sortColumn` names a declared column with `sortable = false`
still produces output sorted by that column in the requested direction. -/
theorem C10_sortable_flag_ignored (data : List Row) (columns : List Column)
    (page_size : Nat) (vs : ViewState) (bl : Bool) :
    computeView data (columns.map (fun c => { c with sortable := bl }))
        page_size vs
      = computeView data columns page_size vs ∧
      (∀ colId col, vs.sortColumn = some colId →
        columns.find? (fun c => c.id == colId) = some col →
          col.sortable = false →
            (vs.sortOrder = .Asc →
              (filteredSorted data columns vs).Pairwise
                (fun a b => sortKey data col.id a ≤ sortKey data col.id b)) ∧
            (vs.sortOrder = .Desc →
              (filteredSorted data columns vs).Pairwise
                (fun a b => sortKey data col.id b ≤ sortKey data col.id a))) := by
  constructor
  · unfold computeView
    rw [filteredSorted_flag]
  · intro colId col hsc hfind hflag
    exact ⟨filteredSorted_sorted_asc data columns vs colId col hsc hfind,
      filteredSorted_sorted_desc data columns vs colId col hsc hfind⟩

/-- Claim C10 witness: a column declared with `sortable = false` is still
sorted by when the view state names it: the three-row dataset comes out
pairwise ordered by the column value. -/
theorem C10_witness :
    (filteredSorted [[("v", "b")], [("v", "a")], [("v", "c")]]
        [⟨"v", "V", false⟩] ⟨0, some "v", .Asc, ""⟩).Pairwise
      (fun a b => sortKey [[("v", "b")], [("v", "a")], [("v", "c")]] "v" a
        ≤ sortKey [[("v", "b")], [("v", "a")], [("v", "c")]] "v" b) :=
  ((C10_sortable_flag_ignored [[("v", "b")], [("v", "a")], [("v", "c")]]
      [⟨"v", "V", false⟩] 10 ⟨0, some "v", .Asc, ""⟩ true).2 "v"
      ⟨"v", "V", false⟩ rfl (by decide) rfl).1 rfl

end TableRs
